import Mathlib

/-!
Verification of the backup orchestration engine (backups-ng) of a
virtualization management platform, against its natural-language
specification.  The JavaScript source is shallowly embedded: each pure
helper becomes a Lean function, the stateful parts of the VM backup worker
become explicit state-transition functions, and the asynchronous atomic
writer becomes a function from an explicit environment (which awaited step
fails, if any) to the trace of filesystem operations it performs together
with its outcome.
-/

namespace BackupNg

/-! ## Retention selector

Embedding of `getOldEntries` from the source:

    const getOldEntries = (retention, entries) =>
      entries === undefined
        ? []
        : --retention > 0 ? entries.slice(0, -retention) : entries

`entries.slice(0, -k)` with `k > 0` keeps the first `length - k` elements
(clamped at 0), which is `List.take (length - k)` with truncated
subtraction.  For a natural-number `retention`, the JS pre-decrement
`--retention` followed by the `> 0` test is `retention - 1 > 0` with
truncated subtraction (both `retention = 0` and `retention = 1` fall into
the else branch returning the whole list, exactly as in JS where
`--retention` yields `-1` resp. `0`). -/
def getOldEntries {α : Type} (retention : Nat) (entries : Option (List α)) : List α :=
  match entries with
  | none => []
  | some es =>
    if retention - 1 > 0 then es.take (es.length - (retention - 1)) else es

/-! ## Settings resolver

Embedding of `defaultSettings` and `getSetting` from the source.  A
`Settings` record is a partial assignment of the five knobs; the settings
map binds scope keys (the empty string, a schedule id, a target id, or a
VM uuid) to such records. -/

inductive ReportWhen : Type
  | always
  | failure
  | never
deriving DecidableEq

/-- One of the five setting knobs. -/
inductive Knob : Type
  | deleteFirst
  | exportRetention
  | reportWhen
  | snapshotRetention
  | vmTimeout
deriving DecidableEq

/-- A value a knob can take (booleans, numbers, report modes). -/
inductive SettingValue : Type
  | bool (b : Bool)
  | nat (n : Nat)
  | report (r : ReportWhen)
deriving DecidableEq

/-- A partial setting record, as stored under one scope key. -/
structure Settings : Type where
  deleteFirst : Option Bool
  exportRetention : Option Nat
  reportWhen : Option ReportWhen
  snapshotRetention : Option Nat
  vmTimeout : Option Nat
deriving DecidableEq

/-- `objectSettings[name]` — the knob, if this record defines it. -/
def Settings.knob (s : Settings) : Knob → Option SettingValue
  | Knob.deleteFirst => s.deleteFirst.map SettingValue.bool
  | Knob.exportRetention => s.exportRetention.map SettingValue.nat
  | Knob.reportWhen => s.reportWhen.map SettingValue.report
  | Knob.snapshotRetention => s.snapshotRetention.map SettingValue.nat
  | Knob.vmTimeout => s.vmTimeout.map SettingValue.nat

/-- The source's `defaultSettings` object:
`deleteFirst: false, exportRetention: 0, reportWhen: 'failure',
snapshotRetention: 0, vmTimeout: 0`. -/
def defaultSettings : Knob → SettingValue
  | Knob.deleteFirst => SettingValue.bool false
  | Knob.exportRetention => SettingValue.nat 0
  | Knob.reportWhen => SettingValue.report ReportWhen.failure
  | Knob.snapshotRetention => SettingValue.nat 0
  | Knob.vmTimeout => SettingValue.nat 0

/-- Embedding of `getSetting(settings, name, ...keys)`: walk the scope keys
in order; the first one whose setting record exists and defines the knob
wins; otherwise the default. -/
def getSetting (settings : String → Option Settings) (name : Knob) :
    List String → SettingValue
  | [] => defaultSettings name
  | k :: keys =>
    match settings k with
    | none => getSetting settings name keys
    | some objectSettings =>
      match objectSettings.knob name with
      | none => getSetting settings name keys
      | some v => v

/-- Formulation following the spec's words (for comparison with
`getSetting`): the value of the knob from the first scope key whose
setting record defines that knob, else the documented default. -/
def getSettingSpec (settings : String → Option Settings) (name : Knob)
    (keys : List String) : SettingValue :=
  (keys.findSome? fun k => (settings k).bind fun os => os.knob name).getD
    (defaultSettings name)

/-! ## Atomic writer

Embedding of `writeStream(input, handler, path, { checksum })`:

    input = await input
    const tmpPath = dirname(path) + '/.' + basename(path)
    const output = await handler.createOutputStream(tmpPath, { checksum })
    try {
      input.pipe(output)
      await pFromEvent(output, 'finish')
      await output.checksumWritten
      await input.task
      await handler.rename(tmpPath, path, { checksum })
    } catch (error) {
      await handler.unlink(tmpPath, { checksum })
      throw error
    }

Each awaited step may reject; the environment `WSEnv` records, for each
step, `none` (it resolves) or `some e` (it rejects with error value `e`,
modelled as a string).  The function returns the list of filesystem
effects that were successfully performed, in order, together with the
error the whole call rejects with, if any.  `await output.checksumWritten`
is a real suspension only when a checksum was requested (otherwise the
awaited value is `undefined`). -/

/-- POSIX `basename`: the part of the path after the last slash. -/
def basenameOf (p : String) : String :=
  String.mk ((p.toList.reverse.takeWhile fun c => c ≠ '/').reverse)

/-- POSIX `dirname`: the part of the path before the last slash, `"."`
when there is no slash, `"/"` when the last slash is the first character. -/
def dirnameOf (p : String) : String :=
  let l := p.toList
  if l.contains '/' then
    let d := ((l.reverse.dropWhile fun c => c ≠ '/').reverse).dropLast
    if d.isEmpty then "/" else String.mk d
  else "."

/-- The dotted temporary name used by the atomic writer. -/
def tmpPathOf (path : String) : String :=
  dirnameOf path ++ "/." ++ basenameOf path

/-- Which awaited step of one `writeStream` call rejects, and with what
error value (`none` = the step resolves). -/
structure WSEnv : Type where
  inputErr : Option String
  createErr : Option String
  finishErr : Option String
  checksumErr : Option String
  taskErr : Option String
  renameErr : Option String
  unlinkErr : Option String
deriving DecidableEq

/-- A successfully performed effect on the remote filesystem. -/
inductive FsOp : Type
  | createOutput (path : String) (checksum : Bool)
  | rename (src : String) (dst : String) (checksum : Bool)
  | unlink (path : String) (checksum : Bool)
deriving DecidableEq

/-- The error the `try` block of `writeStream` rejects with, if any: the
first failing step among the `finish` event, the checksum sidecar (only
awaited when requested), the source task, and the rename. -/
def wsTryError (env : WSEnv) (checksum : Bool) : Option String :=
  match env.finishErr with
  | some e => some e
  | none =>
    match (if checksum then env.checksumErr else none) with
    | some e => some e
    | none =>
      match env.taskErr with
      | some e => some e
      | none => env.renameErr

/-- The writer itself: trace of performed effects and overall outcome. -/
def writeStream (env : WSEnv) (path : String) (checksum : Bool) :
    List FsOp × Option String :=
  match env.inputErr with
  | some e => ([], some e)
  | none =>
    match env.createErr with
    | some e => ([], some e)
    | none =>
      let tmpPath := tmpPathOf path
      match wsTryError env checksum with
      | none =>
        ([FsOp.createOutput tmpPath checksum,
          FsOp.rename tmpPath path checksum], none)
      | some e =>
        match env.unlinkErr with
        | none =>
          ([FsOp.createOutput tmpPath checksum,
            FsOp.unlink tmpPath checksum], some e)
        | some e2 => ([FsOp.createOutput tmpPath checksum], some e2)

/-! ## Job executor

Embedding of the `backup` job executor registered in the constructor.  A
VM is abstracted by its uuid, name, and whether its `_backupVm` worker
(including the optional `vmTimeout` race) settles successfully.  The
executor throws when no schedule is given or no VM matches; otherwise it
runs every worker, logging a `task.start` and a matching `task.end` per
VM — the per-VM `catch` turns a worker failure into a failure `task.end`
event and swallows the error, so the executor itself resolves. -/

structure VmInfo : Type where
  uuid : String
  name : String
  succeeds : Bool
deriving DecidableEq

inductive ExecEvent : Type
  | taskStart (parentId : String) (vmUuid : String)
  | taskEndSuccess (vmUuid : String)
  | taskEndFailure (vmUuid : String)
deriving DecidableEq

/-- The events one VM's iteratee logs: `task.start`, then a `task.end`
whose status reflects the worker's outcome. -/
def vmWorkerEvents (runJobId : String) (vm : VmInfo) : List ExecEvent :=
  [ExecEvent.taskStart runJobId vm.uuid,
   if vm.succeeds then ExecEvent.taskEndSuccess vm.uuid
   else ExecEvent.taskEndFailure vm.uuid]

/-- The registered executor: outcome of the whole run (`Except.error` when
it throws) together with the logged per-VM events. -/
def executor (schedule : Option String) (runJobId : String)
    (vms : List VmInfo) : Except String (List ExecEvent) :=
  match schedule with
  | none => Except.error "backup job cannot run without a schedule"
  | some _ =>
    if vms.isEmpty then Except.error "no VMs match this pattern"
    else Except.ok (vms.flatMap (vmWorkerEvents runJobId))

/-! ## VM backup worker: retention rotation

State-transition models of the retention-relevant effects of one
successful `_backupVm` run, derived from the worker's code.

For one remote target, the worker lists the prior metadata sidecars
matching `(vm, schedule, mode)` (`_listVmBackups` with the mode/schedule
predicate), selects `getOldEntries(exportRetention, listing)` for
deletion, writes the new sidecar, and deletes the selected old ones
(before the transfer or after the sidecar write, depending on
`deleteFirst` — the final set is the same either way on success).

For the hypervisor snapshots, the worker lists the prior snapshots tagged
with the job (filtered further by schedule for the deferred deletion),
takes a fresh tagged snapshot, and on scope exit deletes
`getOldEntries(snapshotRetention, priorFilteredBySchedule)`.  When
`snapshotRetention = 0` the fresh snapshot is additionally deleted — in
full mode by an unconditional deferred `deleteVm`, in delta mode by a
`$defer.onFailure` that only fires when the run failed. -/

inductive BackupMode : Type
  | full
  | delta
deriving DecidableEq

/-- Sidecars matching `(vm, schedule, mode)` on one remote after a
successful per-remote run: the prior listing minus the entries selected by
`getOldEntries`, plus the newly written sidecar. -/
def sidecarsAfterRemoteRun {α : Type} [DecidableEq α] (exportRetention : Nat)
    (prior : List α) (newMeta : α) : List α :=
  let oldBackups := getOldEntries exportRetention (some prior)
  (prior.filter fun m => decide (m ∉ oldBackups)) ++ [newMeta]

/-- Snapshots tagged `(job, schedule)` after one `_backupVm` run that
reached the export phase: prior tagged snapshots minus the deferred
`getOldEntries` deletion, plus the fresh snapshot unless it was deleted
(full mode: deleted whenever `snapshotRetention = 0`; delta mode: deleted
only when `snapshotRetention = 0` and the run failed). -/
def snapshotsAfterVmRun {α : Type} [DecidableEq α] (mode : BackupMode)
    (snapshotRetention : Nat) (prior : List α) (fresh : α)
    (success : Bool) : List α :=
  let old := getOldEntries snapshotRetention (some prior)
  let freshDeleted : Bool :=
    match mode with
    | BackupMode.full => snapshotRetention == 0
    | BackupMode.delta => snapshotRetention == 0 && !success
  (prior.filter fun s => decide (s ∉ old)) ++
    (if freshDeleted then [] else [fresh])

/-! ## Delta mode, per-remote ordering

Embedding of the per-remote body of the delta branch, at the granularity
of its three externally visible phases:

    const deleteFirst =
      exportRetention > 1 && getSetting(settings, 'deleteFirst', remoteId)
    if (deleteFirst) await deleteOldBackups()
    if (!isEmpty(fork.vdis)) { ... transfer ... }
    await handler.outputFile(metadataFilename, jsonMetadata)
    if (!deleteFirst) await deleteOldBackups()
-/

inductive RemoteStep : Type
  | deleteOldBackups
  | transfer
  | writeMetadata
deriving DecidableEq

/-- The ordered phases the delta per-remote body performs.  `hasVdis` is
`!isEmpty(fork.vdis)`; `deleteFirstSetting` is the merged `deleteFirst`
for this remote. -/
def deltaRemoteSteps (exportRetention : Nat) (deleteFirstSetting : Bool)
    (hasVdis : Bool) : List RemoteStep :=
  let deleteFirst := decide (exportRetention > 1) && deleteFirstSetting
  (if deleteFirst then [RemoteStep.deleteOldBackups] else []) ++
    (if hasVdis then [RemoteStep.transfer] else []) ++
    [RemoteStep.writeMetadata] ++
    (if !deleteFirst then [RemoteStep.deleteOldBackups] else [])

/-! ## Replicated VM listing

Embedding of `listReplicatedVms(xapi, scheduleId, srId, vmUuid)`.  The
hypervisor object cache `xapi.objects.all` is modelled as a list of
records carrying the fields the function reads; the JS accumulation
`vms[object.$id] = object` (a string-keyed object, insertion-ordered,
later assignment replacing the value in place) is modelled by
`insertById`; the final `.sort(compareSnapshotTime)` sorts by
`snapshot_time` ascending. -/

structure XapiObject : Type where
  id : String
  type : String
  is_a_snapshot : Bool
  is_a_template : Bool
  blocked_operations : List String
  other_config : List (String × String)
  snapshot_time : Nat
deriving DecidableEq

/-- `object.other_config[key]` (`none` = the key is absent). -/
def ocLookup (o : XapiObject) (k : String) : Option String :=
  o.other_config.lookup k

/-- The filter applied to each cache object: a VM, neither snapshot nor
template, with a blocked `start` operation, whose `other_config` carries
the matching schedule and SR tags, and whose `xo:backup:vm` tag either
matches the VM uuid or is absent (replicas created before the 2018-03-28
fix). -/
def replicatedVmPred (scheduleId : String) (srId : String) (vmUuid : String)
    (o : XapiObject) : Bool :=
  o.type == "vm" && !o.is_a_snapshot && !o.is_a_template &&
    o.blocked_operations.contains "start" &&
    ocLookup o "xo:backup:schedule" == some scheduleId &&
    ocLookup o "xo:backup:sr" == some srId &&
    (ocLookup o "xo:backup:vm" == some vmUuid ||
      ocLookup o "xo:backup:vm" == none)

/-- `vms[object.$id] = object` on an insertion-ordered string-keyed
object. -/
def insertById (acc : List XapiObject) (o : XapiObject) : List XapiObject :=
  if acc.any fun x => x.id == o.id then
    acc.map fun x => if x.id == o.id then o else x
  else acc ++ [o]

/-- The listing itself: filter the cache, deduplicate by `$id`, sort by
`snapshot_time` ascending. -/
def listReplicatedVms (all : List XapiObject) (scheduleId : String)
    (srId : String) (vmUuid : String) : List XapiObject :=
  ((all.filter (replicatedVmPred scheduleId srId vmUuid)).foldl insertById
      []).mergeSort fun a b => decide (a.snapshot_time ≤ b.snapshot_time)

/-- Sample cache object: a replica carrying all three backup tags. -/
def taggedReplica : XapiObject :=
  { id := "r2", type := "vm", is_a_snapshot := false,
    is_a_template := false, blocked_operations := ["start"],
    other_config := [("xo:backup:schedule", "s1"), ("xo:backup:sr", "sr1"),
      ("xo:backup:vm", "v1")],
    snapshot_time := 3 }

/-- Sample cache object: a replica created before the 2018-03-28 fix,
with no `xo:backup:vm` key in its `other_config`. -/
def legacyReplica : XapiObject :=
  { id := "r1", type := "vm", is_a_snapshot := false,
    is_a_template := false, blocked_operations := ["start"],
    other_config := [("xo:backup:schedule", "s1"), ("xo:backup:sr", "sr1")],
    snapshot_time := 5 }

/-! ## Log consolidation

Embedding of the event-folding loop of `getBackupNgLogs`.  The raw log
store is a sequence of `(id, record)` pairs processed in order; the
accumulator `logs` is the insertion-ordered string-keyed object the loop
builds (the final `groupBy parentId` only regroups it and is not needed by
the claims).  Each raw record carries the notice `time`, the `message`,
and the relevant `data` fields; absent fields are `none`.  `result`,
`status` and `error` payloads are opaque and modelled as strings. -/

structure RawLog : Type where
  time : Int
  message : String
  event : String
  dataType : Option String
  parentId : Option String
  taskId : Option String
  runJobId : Option String
  status : Option String
  result : Option String
  error : Option String
deriving DecidableEq

structure LogEntry : Type where
  id : Option String
  parentId : Option String
  message : Option String
  start : Int
  endTime : Option Int
  duration : Option Int
  status : Option String
  result : Option String
  taskId : Option String
  error : Option String
deriving DecidableEq

/-- `logs[k] = v` on an insertion-ordered string-keyed object: replace in
place when the key exists, append otherwise. -/
def setEntry (logs : List (String × LogEntry)) (k : String) (v : LogEntry) :
    List (String × LogEntry) :=
  if (logs.lookup k).isSome then
    logs.map fun p => if p.1 = k then (k, v) else p
  else logs ++ [(k, v)]

/-- `delete logs[k]`. -/
def removeEntry (logs : List (String × LogEntry)) (k : String) :
    List (String × LogEntry) :=
  logs.filter fun p => decide (¬ p.1 = k)

/-- One iteration of the `forEach` switch of `getBackupNgLogs`. -/
def processLogEvent (runId : Option String) (logs : List (String × LogEntry))
    (id : String) (log : RawLog) : List (String × LogEntry) :=
  if log.event = "job.start" then
    if log.dataType = some "backup" ∧ (runId = none ∨ runId = some id)
    then
      setEntry logs id
        { id := some id, parentId := none, message := none,
          start := log.time, endTime := none, duration := none,
          status := none, result := none, taskId := none, error := none }
    else logs
  else if log.event = "job.end" then
    match log.runJobId with
    | none => logs
    | some rid =>
      match logs.lookup rid with
      | none => logs
      | some job =>
        setEntry logs rid
          { job with endTime := some log.time,
                     duration := some (log.time - job.start),
                     error := log.error }
  else if log.event = "task.start" then
    match log.parentId with
    | none => logs
    | some pid =>
      if (logs.lookup pid).isSome then
        setEntry logs id
          { id := none, parentId := log.parentId,
            message := some log.message, start := log.time, endTime := none,
            duration := none, status := none, result := none,
            taskId := none, error := none }
      else logs
  else if log.event = "task.end" then
    match log.taskId with
    | none => logs
    | some tid =>
      match logs.lookup tid with
      | none => logs
      | some task =>
        if log.time = task.start ∧
            (log.message = "merge" ∨ log.message = "tranfer") then
          removeEntry logs tid
        else
          setEntry logs tid
            { task with status := log.status, taskId := log.taskId,
                        result := log.result, endTime := some log.time,
                        duration := some (log.time - task.start) }
  else logs

/-- The whole folding loop over the raw log store (the source then groups
the result by `parentId`). -/
def consolidateBackupNgLogs (runId : Option String)
    (rawLogs : List (String × RawLog)) : List (String × LogEntry) :=
  rawLogs.foldl (fun logs p => processLogEvent runId logs p.1 p.2) []

/-! ## Backup id synthesis and parsing

Embedding of `parseVmBackupId` and of the id synthesis
`backup.id = remoteId + '/' + backup._filename` done by
`listVmBackupsNg`.  JS `String.prototype.indexOf` and `slice` are
embedded with their exact semantics (negative indices count from the end,
both bounds are clamped), since `indexOf` returns `-1` on a miss. -/

/-- JS `s.indexOf(c)`: index of the first occurrence, `-1` when absent. -/
def jsIndexOf (s : List Char) (c : Char) : Int :=
  match s with
  | [] => -1
  | x :: xs =>
    if x = c then 0
    else
      let r := jsIndexOf xs c
      if r < 0 then -1 else r + 1

/-- Normalize one JS slice bound: negative values count from the end and
clamp at 0; non-negative values clamp at the length. -/
def jsNormalize (len : Nat) (i : Int) : Nat :=
  if i < 0 then ((len : Int) + i).toNat else min i.toNat len

/-- JS `s.slice(start, stop?)`. -/
def jsSlice (s : List Char) (start : Int) (stop : Option Int) : List Char :=
  let len := s.length
  let b := jsNormalize len start
  let e := match stop with | none => len | some j => jsNormalize len j
  (s.take e).drop b

/-- Embedding of `parseVmBackupId(id)`: split at the first `/`; the
result is `(remoteId, metadataFilename)`. -/
def parseVmBackupId (id : List Char) : List Char × List Char :=
  let i := jsIndexOf id '/'
  (jsSlice id 0 (some i), jsSlice id (i + 1) none)

/-- The id synthesis done by `listVmBackupsNg`:
`backup.id = remoteId + '/' + backup._filename`. -/
def mkVmBackupId (remoteId : List Char) (metadataFilename : List Char) :
    List Char :=
  remoteId ++ '/' :: metadataFilename

end BackupNg

namespace BackupNg

/-! ## Helper lemmas -/

/-- Whatever the retention, `getOldEntries` over a present list is the
prefix of length `length − (retention − 1)` (truncated subtraction): for
`retention ≤ 1` (including 0) this is the whole list. -/
theorem getOldEntries_eq_take {α : Type} (r : Nat) (es : List α) :
    getOldEntries r (some es) = es.take (es.length - (r - 1)) := by
  unfold getOldEntries
  by_cases h : r - 1 > 0
  · simp [h]
  · have h0 : r - 1 = 0 := by omega
    simp [h, h0]

/-! ## Claim C1 -/

/-- Claim C1 counterexample: with retention 0 and a non-empty entries
list, `getOldEntries` returns the whole list, not the empty list as the
claim states. -/
theorem C1_getOldEntries_cex :
    getOldEntries 0 (some [0]) ≠ ([] : List Nat) := by
  decide

/-- Claim C1 (amended): for every retention `r`, `getOldEntries r`
returns the prefix `entries[0 : len − max(0, r − 1)]` — which is the whole
list whenever `r ≤ 1`, including `r = 0` — and the empty list when the
entries argument is absent. -/
theorem C1_getOldEntries_amended {α : Type} (r : Nat) (es : List α) :
    getOldEntries r (some es) = es.take (es.length - (r - 1)) ∧
    getOldEntries r (none : Option (List α)) = [] :=
  ⟨getOldEntries_eq_take r es, rfl⟩

/-- Removing the elements of `l₁` from `l₁ ++ l₂` leaves `l₂`, when the
whole list has no duplicates. -/
theorem length_filter_not_mem_append {α : Type} [DecidableEq α]
    (l₁ l₂ : List α) (h : (l₁ ++ l₂).Nodup) :
    ((l₁ ++ l₂).filter fun x => decide (x ∉ l₁)).length = l₂.length := by
  rw [List.filter_append]
  have h1 : (l₁.filter fun x => decide (x ∉ l₁)) = [] := by
    rw [List.filter_eq_nil_iff]
    intro a ha
    simp [ha]
  have hdisj := (List.nodup_append.mp h).2.2
  have h2 : (l₂.filter fun x => decide (x ∉ l₁)) = l₂ := by
    rw [List.filter_eq_self]
    intro a ha
    simpa using fun hmem => hdisj hmem ha
  rw [h1, h2]
  simp

/-- Deleting a prefix of a duplicate-free list from it leaves exactly the
corresponding suffix. -/
theorem length_filter_not_mem_take {α : Type} [DecidableEq α] (l : List α)
    (m : Nat) (h : l.Nodup) :
    (l.filter fun x => decide (x ∉ l.take m)).length = l.length - m := by
  have key := length_filter_not_mem_append (l.take m) (l.drop m)
    (by rw [List.take_append_drop]; exact h)
  rw [List.take_append_drop] at key
  rw [key, List.length_drop]

/-- The prior entries surviving the `getOldEntries` deletion number
`min priorCount (retention − 1)`. -/
theorem keptPrior_length {α : Type} [DecidableEq α] (s : Nat)
    (prior : List α) (hnd : prior.Nodup) :
    (prior.filter fun x => decide (x ∉ getOldEntries s (some prior))).length =
      min prior.length (s - 1) := by
  rw [getOldEntries_eq_take, length_filter_not_mem_take prior _ hnd]
  omega

/-- With retention 0, the `getOldEntries` deletion selects every prior
entry, so none survives. -/
theorem keptPrior_nil {α : Type} [DecidableEq α] (prior : List α) :
    (prior.filter fun x => decide (x ∉ getOldEntries 0 (some prior))) = [] := by
  rw [List.filter_eq_nil_iff]
  intro a ha
  simp [getOldEntries, ha]

/-! ## Claim C3 -/

/-- Claim C3: after a successful per-remote run with merged
`exportRetention = k ≥ 1`, the sidecars matching `(vm, schedule, mode)`
on that remote number `min k (priorCount + 1)`, and the sidecar written
by the current run is never among the entries selected for deletion,
because `getOldEntries` only selects from the listing taken before the
new write. -/
theorem C3_sidecar_count_after_run {α : Type} [DecidableEq α] (k : Nat)
    (prior : List α) (newMeta : α) (hk : 1 ≤ k) (hnd : prior.Nodup)
    (hnew : newMeta ∉ prior) :
    (sidecarsAfterRemoteRun k prior newMeta).length =
      min k (prior.length + 1) ∧
    newMeta ∉ getOldEntries k (some prior) := by
  constructor
  · unfold sidecarsAfterRemoteRun
    rw [List.length_append, keptPrior_length k prior hnd]
    simp only [List.length_singleton]
    omega
  · rw [getOldEntries_eq_take]
    intro hmem
    exact hnew (List.take_subset _ _ hmem)

/-- Claim C3 witness: two prior sidecars, retention 2. -/
theorem C3_sidecar_count_after_run_witness :
    (sidecarsAfterRemoteRun 2 ["a.json", "b.json"] "c.json").length =
      min 2 (2 + 1) ∧
    "c.json" ∉ getOldEntries 2 (some ["a.json", "b.json"]) :=
  C3_sidecar_count_after_run 2 ["a.json", "b.json"] "c.json" (by decide)
    (by decide) (by decide)

/-! ## Claim C5 -/

/-- Claim C5 counterexample: in delta mode with `snapshotRetention = 0`,
the snapshot count after a successful run with no prior snapshots is 1,
not `min 0 (0 + 1) = 0` — the freshly taken snapshot is kept (it is only
deleted on failure, to serve as the base of the next delta). -/
theorem C5_snapshot_retention_cex :
    ¬ (snapshotsAfterVmRun BackupMode.delta 0 ([] : List Nat) 7 true).length =
        min 0 (0 + 1) := by
  decide

/-- Claim C5 (amended): after a successful run with merged
`snapshotRetention = s`, the snapshots tagged with the job and schedule
number `min s (priorCount + 1)` whenever `s ≥ 1` (both modes) or the mode
is full (where `s = 0` deletes the fresh snapshot unconditionally); in
delta mode with `s = 0`, however, the fresh snapshot survives a
successful run — the run ends with exactly the fresh snapshot. -/
theorem C5_snapshot_retention (mode : BackupMode) (s : Nat) {α : Type}
    [DecidableEq α] (prior : List α) (fresh : α) (hnd : prior.Nodup) :
    ((mode = BackupMode.full ∨ 1 ≤ s) →
      (snapshotsAfterVmRun mode s prior fresh true).length =
        min s (prior.length + 1)) ∧
    (mode = BackupMode.delta → s = 0 →
      snapshotsAfterVmRun mode s prior fresh true = [fresh]) := by
  constructor
  · intro hc
    cases mode with
    | full =>
      by_cases hs : s = 0
      · subst hs
        simp [snapshotsAfterVmRun, keptPrior_nil]
        intro a ha
        simpa [getOldEntries] using ha
      · have hs1 : (s == 0) = false := by simp [hs]
        simp only [snapshotsAfterVmRun, hs1, Bool.false_eq_true, if_false,
          List.length_append, List.length_singleton]
        rw [keptPrior_length s prior hnd]
        omega
    | delta =>
      have hs : 1 ≤ s := by
        rcases hc with hc | hc
        · exact absurd hc (by simp)
        · exact hc
      have hs1 : (s == 0) = false := by simp; omega
      simp only [snapshotsAfterVmRun, hs1, Bool.false_and,
        Bool.false_eq_true, if_false, List.length_append,
        List.length_singleton]
      rw [keptPrior_length s prior hnd]
      omega
  · intro hmode hs
    subst hmode
    subst hs
    simp [snapshotsAfterVmRun, keptPrior_nil]
    intro a ha
    simpa [getOldEntries] using ha

/-- Claim C5 witness: full mode with retention 0 ends a successful run
with no tagged snapshots; delta mode with retention 0 ends it with the
fresh snapshot only. -/
theorem C5_snapshot_retention_witness :
    (snapshotsAfterVmRun BackupMode.full 0 ["old1"] "fresh" true).length =
      min 0 (1 + 1) ∧
    snapshotsAfterVmRun BackupMode.delta 0 ["old1"] "fresh" true =
      ["fresh"] :=
  ⟨(C5_snapshot_retention BackupMode.full 0 ["old1"] "fresh"
      (by decide)).1 (Or.inl rfl),
    (C5_snapshot_retention BackupMode.delta 0 ["old1"] "fresh"
      (by decide)).2 rfl rfl⟩

/-! ## Claim C6 -/

/-- Claim C6: `getSetting` returns the value of the knob from the first
scope key in the caller-supplied list whose setting record defines that
knob, and the documented default (`deleteFirst: false,
exportRetention: 0, snapshotRetention: 0, reportWhen: failure,
vmTimeout: 0`) when no listed scope defines it. -/
theorem C6_getSetting_first_scope_wins (settings : String → Option Settings)
    (name : Knob) (keys : List String) :
    getSetting settings name keys = getSettingSpec settings name keys ∧
    defaultSettings Knob.deleteFirst = SettingValue.bool false ∧
    defaultSettings Knob.exportRetention = SettingValue.nat 0 ∧
    defaultSettings Knob.snapshotRetention = SettingValue.nat 0 ∧
    defaultSettings Knob.reportWhen = SettingValue.report ReportWhen.failure ∧
    defaultSettings Knob.vmTimeout = SettingValue.nat 0 := by
  refine ⟨?_, rfl, rfl, rfl, rfl, rfl⟩
  induction keys with
  | nil => rfl
  | cons k ks ih =>
    cases hk : settings k with
    | none =>
      simpa [getSetting, getSettingSpec, hk] using ih
    | some os =>
      cases hv : os.knob name with
      | none => simpa [getSetting, getSettingSpec, hk, hv] using ih
      | some v => simp [getSetting, getSettingSpec, hk, hv]

/-! ## Claim C2 -/

/-- The `try` block resolves exactly when all of its awaited steps do
(the checksum sidecar only being awaited when requested). -/
theorem wsTryError_eq_none_iff (env : WSEnv) (checksum : Bool) :
    wsTryError env checksum = none ↔
      env.finishErr = none ∧ (checksum = true → env.checksumErr = none) ∧
        env.taskErr = none ∧ env.renameErr = none := by
  obtain ⟨ie, ce, fe, ke, te, re, ue⟩ := env
  cases fe <;> cases te <;> cases re <;> cases checksum <;> cases ke <;>
    simp [wsTryError]

/-- Claim C2 counterexample: when the output stream errors (`"boom"`)
and the recovery `unlink` of the temporary file itself fails
(`"unlinkfail"`), `writeStream` propagates the unlink error instead of
the original one, and the temporary file is not removed — the claim's
"unlinks the temporary file and propagates the original error" fails. -/
theorem C2_writeStream_cex :
    (writeStream
        (WSEnv.mk none none (some "boom") none none none (some "unlinkfail"))
        "a/b" true).2 = some "unlinkfail" ∧
    FsOp.unlink (tmpPathOf "a/b") true ∉
      (writeStream
        (WSEnv.mk none none (some "boom") none none none (some "unlinkfail"))
        "a/b" true).1 ∧
    some "unlinkfail" ≠ some "boom" := by
  decide

/-- Claim C2 (amended): `writeStream` only ever opens the dotted
temporary name `dirname(path) + "/." + basename(path)` for writing; it
renames it to the final path only when the output stream finished, the
checksum sidecar (when requested) was written, and the source task
completed — the rename being the last performed effect; and on any error
before or at the rename it attempts to unlink the temporary file and the
final path is never created: when that unlink succeeds the original
error propagates, but when the unlink itself fails its error replaces
the original one. -/
theorem C2_writeStream_atomic (env : WSEnv) (path : String)
    (checksum : Bool) :
    (∀ p c, FsOp.createOutput p c ∈ (writeStream env path checksum).1 →
      p = tmpPathOf path ∧ c = checksum) ∧
    (∀ a b c, FsOp.rename a b c ∈ (writeStream env path checksum).1 →
      a = tmpPathOf path ∧ b = path ∧ c = checksum ∧
      (writeStream env path checksum).2 = none ∧
      env.finishErr = none ∧ (checksum = true → env.checksumErr = none) ∧
      env.taskErr = none ∧
      (writeStream env path checksum).1 =
        [FsOp.createOutput (tmpPathOf path) checksum,
          FsOp.rename (tmpPathOf path) path checksum]) ∧
    (∀ e, (writeStream env path checksum).2 = some e →
      (∀ a b c, FsOp.rename a b c ∉ (writeStream env path checksum).1) ∧
      (env.inputErr = none → env.createErr = none →
        (env.unlinkErr = none →
          FsOp.unlink (tmpPathOf path) checksum ∈
            (writeStream env path checksum).1 ∧
          wsTryError env checksum = some e) ∧
        (∀ e2, env.unlinkErr = some e2 → e = e2))) := by
  obtain ⟨ie, ce, fe, ke, te, re, ue⟩ := env
  cases checksum <;> cases ie <;> cases ce <;> cases fe <;> cases ke <;>
    cases te <;> cases re <;> cases ue <;>
    simp [writeStream, wsTryError]

/-- Claim C2 witness: with a failing output stream and a successful
unlink, the temporary file is unlinked and the original error is the one
the try block raised. -/
theorem C2_writeStream_atomic_witness :
    FsOp.unlink (tmpPathOf "dir/file.xva") true ∈
      (writeStream (WSEnv.mk none none (some "boom") none none none none)
        "dir/file.xva" true).1 ∧
    wsTryError (WSEnv.mk none none (some "boom") none none none none) true =
      some "boom" := by
  have h :=
    ((C2_writeStream_atomic
        (WSEnv.mk none none (some "boom") none none none none)
        "dir/file.xva" true).2.2 "boom" (by decide)).2 rfl rfl
  exact h.1 rfl

/-! ## Claim C4 -/

/-- Claim C4 counterexample: a run whose only VM backup fails still ends
with the executor resolving successfully — the per-VM `catch` records the
failure as a `task.end` event and swallows the error, so the job run does
not end in failure. -/
theorem C4_executor_cex :
    (VmInfo.mk "vm1" "n" false).succeeds = false ∧
    (executor (some "sched") "run1" [VmInfo.mk "vm1" "n" false]).isOk =
      true := by
  decide

/-- Claim C4 (amended): with a schedule and a non-empty matching VM set,
the executor processes every VM to completion — each VM gets its
`task.start` and a `task.end` whose status reflects that VM's outcome,
one VM's failure never cancelling its siblings — but the job run itself
always resolves successfully; VM failures surface only as failure
`task.end` log events, never as a failed run. -/
theorem C4_executor_settles_all (s runJobId : String) (vms : List VmInfo)
    (h : ¬ vms = []) :
    executor (some s) runJobId vms =
      Except.ok (vms.flatMap (vmWorkerEvents runJobId)) ∧
    ∀ vm ∈ vms,
      ExecEvent.taskStart runJobId vm.uuid ∈
        vms.flatMap (vmWorkerEvents runJobId) ∧
      (if vm.succeeds then ExecEvent.taskEndSuccess vm.uuid
        else ExecEvent.taskEndFailure vm.uuid) ∈
        vms.flatMap (vmWorkerEvents runJobId) := by
  constructor
  · cases vms with
    | nil => exact absurd rfl h
    | cons a l => simp [executor]
  · intro vm hvm
    constructor
    · exact List.mem_flatMap.mpr ⟨vm, hvm, by simp [vmWorkerEvents]⟩
    · refine List.mem_flatMap.mpr ⟨vm, hvm, ?_⟩
      cases hs : vm.succeeds <;> simp [vmWorkerEvents, hs]

/-- Claim C4 witness: a run over one succeeding and one failing VM still
resolves `ok`, with both VMs' events logged. -/
theorem C4_executor_settles_all_witness :
    executor (some "sched") "run1"
        [VmInfo.mk "vm1" "n1" true, VmInfo.mk "vm2" "n2" false] =
      Except.ok
        ([VmInfo.mk "vm1" "n1" true,
          VmInfo.mk "vm2" "n2" false].flatMap (vmWorkerEvents "run1")) :=
  (C4_executor_settles_all "sched" "run1"
    [VmInfo.mk "vm1" "n1" true, VmInfo.mk "vm2" "n2" false] (by decide)).1

/-! ## Claim C7 -/

/-- Claim C7: in delta mode the per-remote body deletes the selected old
backups before the payload transfer exactly when the merged `deleteFirst`
for that remote is true and `exportRetention > 1`; in every other case
they are deleted after the metadata sidecar has been written. -/
theorem C7_deltaRemoteSteps_order (exportRetention : Nat)
    (deleteFirstSetting : Bool) (hasVdis : Bool) :
    (deleteFirstSetting = true ∧ exportRetention > 1 →
      deltaRemoteSteps exportRetention deleteFirstSetting hasVdis =
        RemoteStep.deleteOldBackups ::
          ((if hasVdis then [RemoteStep.transfer] else []) ++
            [RemoteStep.writeMetadata])) ∧
    (¬(deleteFirstSetting = true ∧ exportRetention > 1) →
      deltaRemoteSteps exportRetention deleteFirstSetting hasVdis =
        (if hasVdis then [RemoteStep.transfer] else []) ++
          [RemoteStep.writeMetadata, RemoteStep.deleteOldBackups]) := by
  constructor
  · rintro ⟨hd, he⟩
    simp [deltaRemoteSteps, hd, he]
  · intro h
    cases hd : deleteFirstSetting with
    | false => simp [deltaRemoteSteps, hd]
    | true =>
      have he : ¬ exportRetention > 1 := fun he => h ⟨hd, he⟩
      simp [deltaRemoteSteps, hd, he]

/-- Claim C7 witness: with `exportRetention = 2`, `deleteFirst = true`
and a non-empty VDI map, the deletion step comes first; with
`exportRetention = 1` it comes after the metadata write. -/
theorem C7_deltaRemoteSteps_order_witness :
    deltaRemoteSteps 2 true true =
      [RemoteStep.deleteOldBackups, RemoteStep.transfer,
        RemoteStep.writeMetadata] ∧
    deltaRemoteSteps 1 true true =
      [RemoteStep.transfer, RemoteStep.writeMetadata,
        RemoteStep.deleteOldBackups] := by
  constructor
  · have h := (C7_deltaRemoteSteps_order 2 true true).1 ⟨rfl, by decide⟩
    simpa using h
  · have h := (C7_deltaRemoteSteps_order 1 true true).2 (by decide)
    simpa using h

/-! ## Claim C9 -/

/-- After `delete logs[k]`, the key `k` resolves to nothing. -/
theorem lookup_removeEntry (logs : List (String × LogEntry)) (k : String) :
    (removeEntry logs k).lookup k = none := by
  induction logs with
  | nil => rfl
  | cons p l ih =>
    by_cases hp : p.1 = k
    · simpa [removeEntry, List.filter_cons, hp] using ih
    · have hb2 : (k == p.1) = false := by simpa using Ne.symm hp
      simpa [removeEntry, List.filter_cons, hp, List.lookup, hb2] using ih

/-- Replacing the value at an existing key makes the key resolve to the
new value. -/
theorem lookup_map_replace (l : List (String × LogEntry)) (k : String)
    (v : LogEntry) (h : (l.lookup k).isSome) :
    (l.map fun p => if p.1 = k then (k, v) else p).lookup k = some v := by
  induction l with
  | nil => simp at h
  | cons p t ih =>
    by_cases hp : p.1 = k
    · simp only [List.map_cons]
      rw [if_pos hp]
      simp [List.lookup]
    · have hb2 : (k == p.1) = false := by simpa using Ne.symm hp
      have ht : (t.lookup k).isSome := by
        simpa [List.lookup, hb2] using h
      simp only [List.map_cons]
      rw [if_neg hp]
      simpa [List.lookup, hb2] using ih ht

/-- `logs[k] = v` on an existing key makes the key resolve to the new
value. -/
theorem lookup_setEntry (logs : List (String × LogEntry)) (k : String)
    (v : LogEntry) (h : (logs.lookup k).isSome) :
    (setEntry logs k v).lookup k = some v := by
  unfold setEntry
  rw [if_pos h]
  exact lookup_map_replace logs k v h

/-- Claim C9: a `task.end` whose time equals the matched record's start
and whose message is `merge` or `tranfer` removes the record from the
consolidated output entirely; every other matching `task.end` copies
`status` and `result` onto the record, stamps `end`, and sets
`duration = end − start`. -/
theorem C9_task_end_consolidation (runId : Option String)
    (logs : List (String × LogEntry)) (id tid : String) (log : RawLog)
    (rec : LogEntry) (hev : log.event = "task.end")
    (htid : log.taskId = some tid) (hrec : logs.lookup tid = some rec) :
    ((log.time = rec.start ∧
        (log.message = "merge" ∨ log.message = "tranfer")) →
      (processLogEvent runId logs id log).lookup tid = none) ∧
    (¬ (log.time = rec.start ∧
        (log.message = "merge" ∨ log.message = "tranfer")) →
      (processLogEvent runId logs id log).lookup tid =
        some { rec with status := log.status, taskId := log.taskId,
                        result := log.result, endTime := some log.time,
                        duration := some (log.time - rec.start) }) := by
  have hred : processLogEvent runId logs id log =
      if log.time = rec.start ∧
          (log.message = "merge" ∨ log.message = "tranfer") then
        removeEntry logs tid
      else
        setEntry logs tid
          { rec with status := log.status, taskId := log.taskId,
                     result := log.result, endTime := some log.time,
                     duration := some (log.time - rec.start) } := by
    unfold processLogEvent
    rw [hev, htid,
      if_neg (by decide : ¬ ("task.end" : String) = "job.start"),
      if_neg (by decide : ¬ ("task.end" : String) = "job.end"),
      if_neg (by decide : ¬ ("task.end" : String) = "task.start"),
      if_pos (rfl : ("task.end" : String) = "task.end")]
    simp only [hrec]
  constructor
  · intro hdel
    rw [hred, if_pos hdel]
    exact lookup_removeEntry logs tid
  · intro hn
    rw [hred, if_neg hn]
    exact lookup_setEntry logs tid _ (by rw [hrec]; rfl)

/-- Claim C9 witness: a real `task.end` updates the record in place; a
degenerate zero-duration `merge` end deletes it. -/
theorem C9_task_end_consolidation_witness :
    (processLogEvent none
        [("t1", LogEntry.mk none (some "j1") (some "transfer") 10 none none
            none none none none)]
        "e9"
        (RawLog.mk 25 "transfer" "task.end" none none (some "t1") none
          (some "success") (some "r") none)).lookup "t1" =
      some (LogEntry.mk none (some "j1") (some "transfer") 10 (some 25)
        (some 15) (some "success") (some "r") (some "t1") none) := by
  have h := (C9_task_end_consolidation none
    [("t1", LogEntry.mk none (some "j1") (some "transfer") 10 none none
        none none none none)]
    "e9" "t1"
    (RawLog.mk 25 "transfer" "task.end" none none (some "t1") none
      (some "success") (some "r") none)
    (LogEntry.mk none (some "j1") (some "transfer") 10 none none none none
      none none)
    rfl rfl (by rfl)).2 (by norm_num)
  simpa using h

/-! ## Claim C10 -/

/-- `indexOf` finds the splicing slash when the left part contains none. -/
theorem jsIndexOf_append (r m : List Char) (c : Char) (h : c ∈ r → False) :
    jsIndexOf (r ++ c :: m) c = (r.length : Int) := by
  induction r with
  | nil => simp [jsIndexOf]
  | cons x xs ih =>
    have hx : ¬ x = c := fun e => h (e ▸ List.mem_cons_self x xs)
    have hxs : c ∈ xs → False := fun hm => h (List.mem_cons_of_mem _ hm)
    rw [List.cons_append]
    unfold jsIndexOf
    rw [ih hxs]
    have hnn : ¬ ((xs.length : Int) < 0) := by omega
    simp [hx, hnn]

/-- The slice `id.slice(0, i)` of a spliced id recovers the left part. -/
theorem jsSlice_left_part (r m : List Char) (c : Char) :
    jsSlice (r ++ c :: m) 0 (some (r.length : Int)) = r := by
  simp only [jsSlice, jsNormalize]
  have hb : ¬ ((0 : Int) < 0) := by omega
  have he : ¬ ((r.length : Int) < 0) := by omega
  rw [if_neg hb, if_neg he]
  have h0 : min (Int.toNat 0) (r ++ c :: m).length = 0 := by
    simp
  have h2 : min (Int.toNat (r.length : Int)) (r ++ c :: m).length =
      r.length := by
    simp [List.length_append]
  rw [h0, h2, List.drop_zero]
  exact List.take_left r (c :: m)

/-- The slice `id.slice(i + 1)` of a spliced id recovers the right part. -/
theorem jsSlice_right_part (r m : List Char) (c : Char) :
    jsSlice (r ++ c :: m) ((r.length : Int) + 1) none = m := by
  simp only [jsSlice, jsNormalize]
  have he : ¬ ((r.length : Int) + 1 < 0) := by omega
  rw [if_neg he]
  have h1 : min (Int.toNat ((r.length : Int) + 1)) (r ++ c :: m).length =
      r.length + 1 := by
    have ht : Int.toNat ((r.length : Int) + 1) = r.length + 1 := by omega
    rw [ht]
    simp [List.length_append]
  rw [h1, List.take_length]
  have hassoc : r ++ c :: m = (r ++ [c]) ++ m := by simp
  rw [hassoc]
  have hl : (r ++ [c]).length = r.length + 1 := by simp
  rw [← hl]
  exact List.drop_left (r ++ [c]) m

/-- Claim C10: for every remoteId without `/` and every metadata
filename, `parseVmBackupId` inverts the id synthesis of
`listVmBackupsNg`: it returns exactly the remote id and the sidecar
path. -/
theorem C10_parseVmBackupId_left_inverse (remoteId : List Char)
    (metadataFilename : List Char) (h : '/' ∉ remoteId) :
    parseVmBackupId (mkVmBackupId remoteId metadataFilename) =
      (remoteId, metadataFilename) := by
  have hidx := jsIndexOf_append remoteId metadataFilename '/' h
  simp only [parseVmBackupId, mkVmBackupId, hidx]
  rw [jsSlice_left_part remoteId metadataFilename '/',
    jsSlice_right_part remoteId metadataFilename '/']

/-! ## Claim C8 -/

/-- The JS accumulation `vms[object.$id] = object` is the identity on a
list whose ids are pairwise distinct. -/
theorem foldl_insertById_eq (l : List XapiObject) :
    ∀ acc : List XapiObject,
      ((acc ++ l).map XapiObject.id).Nodup →
      l.foldl insertById acc = acc ++ l := by
  induction l with
  | nil => intro acc _; simp
  | cons o l ih =>
    intro acc h
    have hids : (acc.map XapiObject.id ++
        (o.id :: l.map XapiObject.id)).Nodup := by
      simpa using h
    have hno : ¬ acc.any (fun x => x.id == o.id) = true := by
      intro hany
      rw [List.any_eq_true] at hany
      obtain ⟨x, hx, hxe⟩ := hany
      have hxe2 : x.id = o.id := by simpa using hxe
      have hdisj := (List.nodup_append.mp hids).2.2
      exact hdisj (List.mem_map_of_mem XapiObject.id hx)
        (by simp [hxe2])
    rw [List.foldl_cons]
    have hins : insertById acc o = acc ++ [o] := by
      simp only [insertById]
      rw [if_neg hno]
    rw [hins, ih (acc ++ [o]) (by simpa using h)]
    simp

/-- Claim C8 counterexample: an object whose `other_config` has no
`xo:backup:vm` key at all is still returned by `listReplicatedVms`,
although the claim requires that key to map to the requested VM uuid. -/
theorem C8_listReplicatedVms_cex :
    legacyReplica ∈ listReplicatedVms [legacyReplica] "s1" "sr1" "v1" ∧
    ocLookup legacyReplica "xo:backup:vm" ≠ some "v1" := by
  constructor
  · unfold listReplicatedVms
    rw [List.Perm.mem_iff (List.mergeSort_perm _ _)]
    have hf : List.filter (replicatedVmPred "s1" "sr1" "v1")
        [legacyReplica] = [legacyReplica] := by decide
    rw [hf]
    simp [insertById]
  · decide

/-- Claim C8 (amended): on a cache with pairwise-distinct object ids,
`listReplicatedVms` returns exactly the cache objects that are VMs,
neither snapshots nor templates, with a blocked `start` operation, whose
`other_config` carries the requested schedule and SR tags, and whose
`xo:backup:vm` tag either equals the requested VM uuid or is absent
(replicas created before the 2018-03-28 fix) — sorted by `snapshot_time`
ascending. -/
theorem C8_listReplicatedVms_filter_sort (all : List XapiObject)
    (scheduleId srId vmUuid : String)
    (h : (all.map XapiObject.id).Nodup) :
    (∀ o, o ∈ listReplicatedVms all scheduleId srId vmUuid ↔
      o ∈ all ∧ replicatedVmPred scheduleId srId vmUuid o = true) ∧
    (listReplicatedVms all scheduleId srId vmUuid).Pairwise
      (fun a b => a.snapshot_time ≤ b.snapshot_time) := by
  have hsub : ((all.filter
      (replicatedVmPred scheduleId srId vmUuid)).map XapiObject.id).Nodup :=
    h.sublist ((all.filter_sublist).map XapiObject.id)
  have hfold : (all.filter
        (replicatedVmPred scheduleId srId vmUuid)).foldl insertById [] =
      all.filter (replicatedVmPred scheduleId srId vmUuid) :=
    foldl_insertById_eq _ [] (by simpa using hsub)
  constructor
  · intro o
    unfold listReplicatedVms
    rw [hfold, List.Perm.mem_iff (List.mergeSort_perm _ _)]
    simp [List.mem_filter]
  · unfold listReplicatedVms
    rw [hfold]
    have hsorted := @List.sorted_mergeSort XapiObject
      (fun a b => decide (a.snapshot_time ≤ b.snapshot_time))
      (by
        intro a b c hab hbc
        simp only [decide_eq_true_eq] at hab hbc ⊢
        omega)
      (by
        intro a b
        simpa using Nat.le_total a.snapshot_time b.snapshot_time)
      (all.filter (replicatedVmPred scheduleId srId vmUuid))
    refine hsorted.imp ?_
    intro a b hab
    simpa using hab

/-- Claim C8 witness: a fully tagged replica is listed for its schedule,
SR and VM uuid. -/
theorem C8_listReplicatedVms_filter_sort_witness :
    taggedReplica ∈ listReplicatedVms [taggedReplica] "s1" "sr1" "v1" :=
  ((C8_listReplicatedVms_filter_sort [taggedReplica] "s1" "sr1" "v1"
      (by decide)).1 taggedReplica).mpr ⟨by decide, by decide⟩

/-- Claim C10 witness at a concrete id. -/
theorem C10_parseVmBackupId_left_inverse_witness :
    parseVmBackupId
        (mkVmBackupId "remote1".toList
          "xo-vm-backups/vm1/20240101T000000Z.json".toList) =
      ("remote1".toList, "xo-vm-backups/vm1/20240101T000000Z.json".toList) :=
  C10_parseVmBackupId_left_inverse "remote1".toList
    "xo-vm-backups/vm1/20240101T000000Z.json".toList (by decide)

end BackupNg
